import Mathlib

/-!
Shallow embedding of `src/ara_webscraping.py` (Ara retail webscraping script).

Python values occurring in the script (JSON payloads, browser-log events,
product records) are modelled by the inductive type `PyVal`; Python dicts are
association lists whose key order is insertion order, matching CPython.
Python exceptions that the script can raise are modelled by `PyError` and
fallible steps return `Except PyError _`.

External collaborators (the Selenium browser, the CDP `Network.getResponseBody`
command, `json.loads`, and `requests.get` redirect resolution) are inputs of
the model, collected in the `Web` structure: the script's behaviour is a pure
function of what those collaborators return.  Browser-launch failures, CDP
errors for unknown request ids and JSON decode errors are faults of those
collaborators (the spec treats them as fatal external errors) and are outside
the claims verified here.
-/

/-- Model of a Python value as it appears in this script's data flow. -/
inductive PyVal where
  | none : PyVal
  | str : String → PyVal
  | int : Int → PyVal
  | list : List PyVal → PyVal
  | tup : List PyVal → PyVal
  | dict : List (String × PyVal) → PyVal
  | datetime : Nat → Nat → Nat → Nat → Nat → Nat → PyVal

/-- Python exceptions the script can raise. -/
inductive PyError where
  | nameError : PyError
  | indexError : PyError
  | keyError : PyError
  | typeError : PyError
  | attributeError : PyError
  | valueError : PyError
deriving DecidableEq

/-- Result of `datetime.now()` at the start of a run. -/
structure PyDateTime where
  year : Nat
  month : Nat
  day : Nat
  hour : Nat
  minute : Nat
  second : Nat

/-- Zero-pad a natural number to two digits, as `strftime` does. -/
def pad2 (n : Nat) : String :=
  if n < 10 then "0" ++ toString n else toString n

/-- Zero-pad a natural number to four digits, as `strftime` does for `%Y`. -/
def pad4 (n : Nat) : String :=
  if n < 10 then "000" ++ toString n
  else if n < 100 then "00" ++ toString n
  else if n < 1000 then "0" ++ toString n
  else toString n

/-- Python `now.strftime("%Y%m%d")`. -/
def strftimeYmd (t : PyDateTime) : String :=
  pad4 t.year ++ pad2 t.month ++ pad2 t.day

/-- Python `now.strftime("%H:%M:%S")`. -/
def strftimeHMS (t : PyDateTime) : String :=
  pad2 t.hour ++ ":" ++ pad2 t.minute ++ ":" ++ pad2 t.second

/-- Python `str(datetime(...))`, used only inside `pyRepr`. -/
def dtStr (y mo d h mi s : Nat) : String :=
  pad4 y ++ "-" ++ pad2 mo ++ "-" ++ pad2 d ++ " " ++
    pad2 h ++ ":" ++ pad2 mi ++ ":" ++ pad2 s

mutual

/-- Python `repr` of a value (strings get quotes), as used inside containers. -/
def pyRepr : PyVal → String
  | PyVal.none => "None"
  | PyVal.str s => "\x27" ++ s ++ "\x27"
  | PyVal.int n => toString n
  | PyVal.datetime y mo d h mi s => dtStr y mo d h mi s
  | PyVal.list xs => "[" ++ pyReprSeq xs ++ "]"
  | PyVal.tup [x] => "(" ++ pyRepr x ++ ",)"
  | PyVal.tup xs => "(" ++ pyReprSeq xs ++ ")"
  | PyVal.dict kvs => "\x7b" ++ pyReprItems kvs ++ "\x7d"

/-- Comma-separated `repr`s of a sequence's elements. -/
def pyReprSeq : List PyVal → String
  | [] => ""
  | [x] => pyRepr x
  | x :: xs => pyRepr x ++ ", " ++ pyReprSeq xs

/-- Comma-separated `repr`s of a dict's items. -/
def pyReprItems : List (String × PyVal) → String
  | [] => ""
  | [(k, v)] => "\x27" ++ k ++ "\x27: " ++ pyRepr v
  | (k, v) :: kvs => "\x27" ++ k ++ "\x27: " ++ pyRepr v ++ ", " ++ pyReprItems kvs

end

/-- Python `str` of a value: a bare string for `str`, `repr`-like otherwise. -/
def pyStr : PyVal → String
  | PyVal.str s => s
  | v => pyRepr v

/-- Boolean infix (substring) test on character lists. -/
def charsContainSub (pat : List Char) : List Char → Bool
  | [] => pat.isPrefixOf []
  | c :: cs => pat.isPrefixOf (c :: cs) || charsContainSub pat cs

/-- Python `s.find(sub) != -1`: `sub` occurs as a substring of `s`. -/
def strContains (s sub : String) : Bool :=
  charsContainSub sub.toList s.toList

/-- Replacement of every occurrence of `pat` (non-empty) in a character list,
left to right and non-overlapping, with a step-count fuel that starts at the
list length (the fuel never runs out, since every step consumes at least one
character). -/
def charsReplaceAux (pat rep : List Char) : Nat → List Char → List Char
  | _, [] => []
  | 0, s => s
  | Nat.succ n, c :: cs =>
      if pat.isPrefixOf (c :: cs) then
        rep ++ charsReplaceAux pat rep n (List.drop (pat.length - 1) cs)
      else c :: charsReplaceAux pat rep n cs

/-- Python `s.replace(pat, rep)`: every occurrence replaced, left to right,
non-overlapping.  The script never calls it with an empty pattern; that case
returns `s` unchanged here. -/
def strReplace (s pat rep : String) : String :=
  if pat.isEmpty then s
  else String.mk (charsReplaceAux pat.toList rep.toList s.toList.length s.toList)

/-- Python truthiness, as used by `if meta:` and `if not products:`. -/
def pyTruthy : PyVal → Bool
  | PyVal.none => false
  | PyVal.str s => !s.isEmpty
  | PyVal.int n => n != 0
  | PyVal.list xs => !xs.isEmpty
  | PyVal.tup xs => !xs.isEmpty
  | PyVal.dict kvs => !kvs.isEmpty
  | PyVal.datetime _ _ _ _ _ _ => true

/-- Python `d.get(key)` on a dict body: the bound value, or `None` if absent. -/
def dLookup (kvs : List (String × PyVal)) (key : String) : PyVal :=
  match kvs.find? (fun kv => kv.1 == key) with
  | some kv => kv.2
  | Option.none => PyVal.none

/-- Python subscript `v[key]` with a string key: `KeyError` when a dict lacks
the key, `TypeError` when `v` is not a dict. -/
def pySubscript (v : PyVal) (key : String) : Except PyError PyVal :=
  match v with
  | PyVal.dict kvs =>
      match kvs.find? (fun kv => kv.1 == key) with
      | some kv => Except.ok kv.2
      | Option.none => Except.error PyError.keyError
  | _ => Except.error PyError.typeError

/-- Python method call `v.get(key)`: only dicts have `.get`; any other value
raises `AttributeError`. -/
def pyDotGet (v : PyVal) (key : String) : Except PyError PyVal :=
  match v with
  | PyVal.dict kvs => Except.ok (dLookup kvs key)
  | _ => Except.error PyError.attributeError

/-- Python `len(v)`: defined for sequences, strings and dicts; `TypeError`
otherwise (in particular `len(None)`). -/
def pyLen : PyVal → Except PyError Nat
  | PyVal.list xs => Except.ok xs.length
  | PyVal.tup xs => Except.ok xs.length
  | PyVal.str s => Except.ok s.length
  | PyVal.dict kvs => Except.ok kvs.length
  | _ => Except.error PyError.typeError

/-- Python `for x in v`: the iterated elements, or `TypeError` for
non-iterables (in particular `None`). -/
def pyElems : PyVal → Except PyError (List PyVal)
  | PyVal.list xs => Except.ok xs
  | PyVal.tup xs => Except.ok xs
  | PyVal.dict kvs => Except.ok (kvs.map (fun kv => PyVal.str kv.1))
  | PyVal.str s => Except.ok (s.toList.map (fun c => PyVal.str (String.singleton c)))
  | _ => Except.error PyError.typeError

/-- Python list indexing `xs[i]` with a non-negative index. -/
def listIndex (xs : List PyVal) (i : Nat) : Except PyError PyVal :=
  match xs[i]? with
  | some x => Except.ok x
  | Option.none => Except.error PyError.indexError

/-- Normalized product record: the dict `product_scraped` built by
`_get_product_info`, an insertion-ordered association list. -/
abbrev Row : Type := List (String × PyVal)

/-- Keys of a record, in insertion order. -/
def rowKeys (r : Row) : List String := r.map Prod.fst

/-- Lookup in a record, Python `product_scraped.get(key)` semantics. -/
def rowGet (r : Row) (key : String) : PyVal := dLookup r key

/-- Columns of the final DataFrame: union of the rows' keys, in order of first
appearance, as `pd.concat` builds them. -/
def tableColumns (rows : List Row) : List String :=
  ((rows.map rowKeys).flatten).dedup

/-- Embedding of `_get_first_element` (src lines 213-227).  The source reads
`found_key = origin_dict_.get(key)`; calling `.get` on a non-dict raises
`AttributeError`.  When the found value is a list the source returns
`str(key[0])` — the first character of the key NAME (an `IndexError` on an
empty key); otherwise the empty string. -/
def _get_first_element (origin_dict : PyVal) (key : String) : Except PyError String :=
  match origin_dict with
  | PyVal.dict kvs =>
      match dLookup kvs key with
      | PyVal.list _ =>
          if key.isEmpty then Except.error PyError.indexError
          else Except.ok (String.take key 1)
      | _ => Except.ok ""
  | _ => Except.error PyError.attributeError

/-- Value `_get_first_element` computes on a dict argument with a non-empty
key: the first character of the key NAME when the key is bound to a list, the
empty string otherwise. -/
def firstElemVal (kvs : List (String × PyVal)) (key : String) : String :=
  match dLookup kvs key with
  | PyVal.list _ => String.take key 1
  | _ => ""

/-- The nine directly-copied fields of `product_scraped` (src lines 137-152),
in insertion order. -/
def baseRow (product_info : List (String × PyVal)) : Row := [
  ("id", dLookup product_info "ID"),
  ("image_url", dLookup product_info "image"),
  ("post_type", dLookup product_info "post_type"),
  ("post_date", dLookup product_info "post_date"),
  ("post_modified", dLookup product_info "post_modified"),
  ("post_status", dLookup product_info "post_status"),
  ("post_name", dLookup product_info "post_name"),
  ("product_name", dLookup product_info "post_name"),
  ("post_title", dLookup product_info "post_title")]

/-- The product-URL and category derivation of src lines 180-193, appended to
the record built so far. -/
def finishRow (resolve : String → String) (row1 : Row) : Row :=
  let product_name := rowGet row1 "product_name"
  let product_type := rowGet row1 "post_type"
  let product_url :=
    "https://aratiendas.com/" ++ pyStr product_type ++ "/" ++ pyStr product_name ++ "/"
  let product_request := strReplace (resolve product_url) "%" ""
  let category := PyVal.tup [PyVal.str
    (strReplace
      (strReplace (strReplace product_request "https://aratiendas.com/" "")
        (pyStr product_type ++ "/") "")
      ("/" ++ pyStr product_name ++ "/") "")]
  row1 ++ [("product_url", PyVal.str product_url), ("category", category)]

/-- Embedding of `_get_product_info` (src lines 125-195).  The `requests.get`
redirect resolution is an external collaborator passed in as `resolve` (the
final URL returned for a requested URL).  Dict insertions are modelled by
appending, since every key written is fresh. -/
def _get_product_info (resolve : String → String) (product_info : List (String × PyVal)) :
    Except PyError Row := do
  let meta := dLookup product_info "meta"
  let metaFields : Row ←
    if pyTruthy meta then do
      let v1 ← _get_first_element meta "comunicacion"
      let v2 ← _get_first_element meta "descripcion"
      let v3 ← _get_first_element meta "precio_promocion_"
      let v4 ← _get_first_element meta "precio_referente"
      let v5 ← _get_first_element meta "tipo_de_precio_referente"
      let v6 ← _get_first_element meta "marca"
      let v7 ← _get_first_element meta "producto_destacado"
      let v8 ← _get_first_element meta "sap-ean"
      let v9 ← _get_first_element meta "region"
      let v10 ← _get_first_element meta "unidad_de_medida"
      pure [
        ("comunicacion_type", PyVal.str v1),
        ("product_description", PyVal.str v2),
        ("sale_price", PyVal.str v3),
        ("price", PyVal.str v4),
        ("price_type", PyVal.str v5),
        ("brand", PyVal.str v6),
        ("outstanding", PyVal.str v7),
        ("sap_ean_code", PyVal.str v8),
        ("region", PyVal.str v9),
        ("measure", PyVal.str v10)]
    else pure []
  pure (finishRow resolve (baseRow product_info ++ metaFields))

/-- The ten meta-derived insertions of src lines 158-178, as a function of a
`meta` dict body: the closed form the `_get_first_element` calls produce. -/
def metaRow10 (m : List (String × PyVal)) : Row := [
  ("comunicacion_type", PyVal.str (firstElemVal m "comunicacion")),
  ("product_description", PyVal.str (firstElemVal m "descripcion")),
  ("sale_price", PyVal.str (firstElemVal m "precio_promocion_")),
  ("price", PyVal.str (firstElemVal m "precio_referente")),
  ("price_type", PyVal.str (firstElemVal m "tipo_de_precio_referente")),
  ("brand", PyVal.str (firstElemVal m "marca")),
  ("outstanding", PyVal.str (firstElemVal m "producto_destacado")),
  ("sap_ean_code", PyVal.str (firstElemVal m "sap-ean")),
  ("region", PyVal.str (firstElemVal m "region")),
  ("measure", PyVal.str (firstElemVal m "unidad_de_medida"))]

/-- External collaborators of `webscraping_ara`, treated as inputs: the
decoded performance-log events per page URL (the composition of
`get_log("performance")` with `_process_browser_log_entry`, whose content is
browser-supplied data), the CDP `Network.getResponseBody(...).get("body")`
result per request id, `json.loads` on the bodies encountered, and the
`requests.get(url).url` redirect resolution. -/
structure Web where
  logs : String → List PyVal
  body : PyVal → Option String
  jsonLoads : String → PyVal
  resolve : String → String

/-- URL built for a region (src lines 43-45): the national URL when the
region is `None`. -/
def regionUrl : Option String → String
  | Option.none => "https://aratiendas.com/rebajon/"
  | some r => "https://aratiendas.com/rebajon/" ++ r ++ "/"

/-- Does `str(event).find("admin") != -1` hold for a decoded event? -/
def hasAdmin (e : PyVal) : Bool := strContains (pyStr e) "admin"

/-- Embedding of the scan loop (src lines 54-57): the index of the first
event whose string form contains `"admin"`, starting the enumeration at `n`;
`none` when no event matches (the loop then leaves `first_event` unbound or
stale). -/
def adminScanFrom (n : Nat) : List PyVal → Option Nat
  | [] => Option.none
  | e :: es => if hasAdmin e then some n else adminScanFrom (n + 1) es

/-- Value stored in `extracted_region`: the region string, or Python `None`
for the national (absent-region) case. -/
def regionMarker : Option String → PyVal
  | Option.none => PyVal.none
  | some r => PyVal.str r

/-- The four extraction-metadata insertions of src lines 79-82. -/
def extFields (region : Option String) (now : PyDateTime) : Row := [
  ("extracted_region", regionMarker region),
  ("extracted_datetime",
    PyVal.datetime now.year now.month now.day now.hour now.minute now.second),
  ("extracted_date", PyVal.str (strftimeYmd now)),
  ("extracted_time", PyVal.str (strftimeHMS now))]

/-- Per-product normalization inside the region loop (src lines 76-83):
`_get_product_info` on the raw product (an `AttributeError` if the iterated
element is not a dict) followed by the four extraction-metadata insertions. -/
def productRow (resolve : String → String) (now : PyDateTime) (region : Option String)
    (product : PyVal) : Except PyError Row :=
  match product with
  | PyVal.dict kvs =>
      match _get_product_info resolve kvs with
      | Except.error e => Except.error e
      | Except.ok info => Except.ok (info ++ extFields region now)
  | _ => Except.error PyError.attributeError

/-- The `for product in list_products` loop body, accumulating
`list_products_info` in iteration order. -/
def buildRows (resolve : String → String) (now : PyDateTime) (region : Option String) :
    List PyVal → Except PyError (List Row)
  | [] => Except.ok []
  | p :: ps =>
      match productRow resolve now region p with
      | Except.error e => Except.error e
      | Except.ok row =>
          match buildRows resolve now region ps with
          | Except.error e => Except.error e
          | Except.ok rest => Except.ok (row :: rest)

/-- Everything a region does after the admin-scan index is settled (src lines
60-83): index into the events, read `["params"]["requestId"]`, fetch the body,
skip the region on an empty/absent body (`Option.none` result), otherwise
decode the payload, take `.get("data")`, evaluate `len` (the `TypeError` site
for a missing `"data"` key), and normalize each product in discovery order. -/
def regionFetch (w : Web) (now : PyDateTime) (region : Option String)
    (events : List PyVal) (i : Nat) : Except PyError (Option (List Row)) :=
  match listIndex events i with
  | Except.error e => Except.error e
  | Except.ok ev =>
    match pySubscript ev "params" with
    | Except.error e => Except.error e
    | Except.ok ps =>
      match pySubscript ps "requestId" with
      | Except.error e => Except.error e
      | Except.ok rid =>
        match w.body rid with
        | Option.none => Except.ok Option.none
        | some s =>
          if s = "" then Except.ok Option.none
          else
            match pyDotGet (w.jsonLoads s) "data" with
            | Except.error e => Except.error e
            | Except.ok list_products =>
              match pyLen list_products with
              | Except.error e => Except.error e
              | Except.ok _ =>
                match pyElems list_products with
                | Except.error e => Except.error e
                | Except.ok items =>
                  match buildRows w.resolve now region items with
                  | Except.error e => Except.error e
                  | Except.ok rows => Except.ok (some rows)

/-- One iteration of the region loop.  `fe` is the value of the function-scoped
variable `first_event` coming into the iteration (`none` while still unbound):
the scan assigns it on a match and otherwise leaves it, so a region with no
`"admin"` event raises `NameError` only when no earlier region bound it, and
silently reuses the stale index otherwise.  A skipped region yields
`(fe', none)`; a processed one `(fe', some rows)`. -/
def runRegion (w : Web) (now : PyDateTime) (fe : Option Nat) (region : Option String) :
    Except PyError (Option Nat × Option (List Row)) :=
  let events := w.logs (regionUrl region)
  let fe' := match adminScanFrom 0 events with
    | some i => some i
    | Option.none => fe
  match fe' with
  | Option.none => Except.error PyError.nameError
  | some i =>
      match regionFetch w now region events i with
      | Except.error e => Except.error e
      | Except.ok o => Except.ok (some i, o)

/-- The region loop (src lines 42-87): threads `first_event` across
iterations and appends one per-region table to `products_dataframe_list` for
every non-skipped region (also when it has zero products). -/
def webLoop (w : Web) (now : PyDateTime) :
    List (Option String) → Option Nat → List (List Row) →
    Except PyError (List (List Row))
  | [], _, acc => Except.ok acc
  | r :: rs, fe, acc =>
      match runRegion w now fe r with
      | Except.error e => Except.error e
      | Except.ok (fe', Option.none) => webLoop w now rs fe' acc
      | Except.ok (fe', some rows) => webLoop w now rs fe' (acc ++ [rows])

/-- `pd.concat(list).reset_index(drop=True)` (src line 90): a `ValueError`
on an empty list of frames, otherwise the order-preserving concatenation
(row indices of a Lean list are contiguous by construction, matching the
dropped-and-reset index). -/
def pdConcat : List (List Row) → Except PyError (List Row)
  | [] => Except.error PyError.valueError
  | t :: ts => Except.ok ((t :: ts).flatten)

/-- Embedding of `webscraping_ara` (src lines 26-92). -/
def webscraping_ara (w : Web) (now : PyDateTime) (regions : List (Option String)) :
    Except PyError (List Row) :=
  match webLoop w now regions Option.none [] with
  | Except.error e => Except.error e
  | Except.ok tables => pdConcat tables

/-- Spec-side row assembly for the refinement claim about ordering, following
the spec's words: "row order in the final table equals concatenation of
per-region tables in the order regions were supplied", a skipped region
contributing nothing, with "no deduplication, no sorting beyond natural append
order".  The per-region tables themselves (`runRegion`, whose rows are built
in discovery order by `buildRows`) are common to this reading and the code
path; what this definition pins down is the direct order-preserving
concatenation, to be compared with the code's accumulate-then-`pd.concat`
assembly. -/
def specOrderedRows (w : Web) (now : PyDateTime) :
    List (Option String) → Option Nat → Except PyError (List Row)
  | [], _ => Except.ok []
  | r :: rs, fe =>
      match runRegion w now fe r with
      | Except.error e => Except.error e
      | Except.ok (fe', Option.none) => specOrderedRows w now rs fe'
      | Except.ok (fe', some rows) =>
          match specOrderedRows w now rs fe' with
          | Except.error e => Except.error e
          | Except.ok rest => Except.ok (rows ++ rest)

/-- The ten record fields derived from the `meta` sub-map, in insertion
order (src lines 158-178). -/
def metaDerivedKeys : List String := [
  "comunicacion_type", "product_description", "sale_price", "price",
  "price_type", "brand", "outstanding", "sap_ean_code", "region", "measure"]

/-- Keys of a normalized record whose raw product had no truthy `meta`,
before the extraction-metadata fields are added. -/
def keysNoMeta : List String := [
  "id", "image_url", "post_type", "post_date", "post_modified", "post_status",
  "post_name", "product_name", "post_title", "product_url", "category"]

/-- Keys of a normalized record whose raw product had a `meta` dict, before
the extraction-metadata fields are added. -/
def keysWithMeta : List String := [
  "id", "image_url", "post_type", "post_date", "post_modified", "post_status",
  "post_name", "product_name", "post_title"] ++ metaDerivedKeys ++
  ["product_url", "category"]

/-- The four extraction-metadata keys (src lines 79-82). -/
def extractedKeys : List String := [
  "extracted_region", "extracted_datetime", "extracted_date", "extracted_time"]

/-- The full column list of the output table, in the order the spec's §3
data-model field list enumerates it (there are 25 names in that enumeration). -/
def allColumns : List String := keysWithMeta ++ extractedKeys

/-- Is a value a Python string? -/
def isStrVal : PyVal → Bool
  | PyVal.str _ => true
  | _ => false

/-- Did a run return normally? -/
def isOkRun : Except PyError (List Row) → Bool
  | Except.ok _ => true
  | Except.error _ => false

/-- Redirect resolution used in the examples: the one URL the spec's category
scenario mentions redirects to its canonical location, everything else
resolves to itself. -/
def resolveEx : String → String := fun u =>
  if u = "https://aratiendas.com/producto/leche-entera/" then
    "https://aratiendas.com/producto/leche-entera/lacteos/"
  else u

/-- Raw product record of the spec's meta and category scenarios:
`meta = {"marca": ["AcmeCo"]}`, post type `producto`, name `leche-entera`. -/
def product1kvs : List (String × PyVal) := [
  ("ID", PyVal.str "1"),
  ("image", PyVal.str "https://img.example/1.png"),
  ("post_type", PyVal.str "producto"),
  ("post_date", PyVal.str "2024-01-01"),
  ("post_modified", PyVal.str "2024-01-02"),
  ("post_status", PyVal.str "publish"),
  ("post_name", PyVal.str "leche-entera"),
  ("post_title", PyVal.str "Leche Entera"),
  ("meta", PyVal.dict [("marca", PyVal.list [PyVal.str "AcmeCo"])])]

/-- Decoded performance-log event whose string form contains `"admin"` and
which carries a request id. -/
def adminEvent : PyVal := PyVal.dict [
  ("url", PyVal.str "https://aratiendas.com/wp-admin/admin-ajax.php"),
  ("params", PyVal.dict [("requestId", PyVal.str "REQ1")])]

/-- Decoded performance-log event whose string form does not contain
`"admin"`, also carrying a request id. -/
def noAdminEvent : PyVal := PyVal.dict [
  ("url", PyVal.str "https://example.com/x"),
  ("params", PyVal.dict [("requestId", PyVal.str "REQ2")])]

/-- A fixed run timestamp for the concrete examples. -/
def nowEx : PyDateTime := ⟨2026, 10, 12, 10, 30, 0⟩

/-- Minimal raw product with a `meta` dict, used in the end-to-end examples. -/
def productMin : PyVal := PyVal.dict [
  ("post_type", PyVal.str "producto"),
  ("post_name", PyVal.str "pan"),
  ("meta", PyVal.dict [("marca", PyVal.list [PyVal.str "X"])])]

/-- World for the end-to-end examples: the national page logs one admin
event, its body decodes to a payload with one product. -/
def wMin : Web := {
  logs := fun u => if u = "https://aratiendas.com/rebajon/" then [adminEvent] else [],
  body := fun rid => match rid with
    | PyVal.str s => if s = "REQ1" then some "BODY1" else Option.none
    | _ => Option.none,
  jsonLoads := fun s =>
    if s = "BODY1" then PyVal.dict [("data", PyVal.list [productMin])] else PyVal.none,
  resolve := fun u => u }

/-- The single normalized row the `wMin` run produces. -/
def rowMin : Row := [
  ("id", PyVal.none), ("image_url", PyVal.none),
  ("post_type", PyVal.str "producto"),
  ("post_date", PyVal.none), ("post_modified", PyVal.none),
  ("post_status", PyVal.none),
  ("post_name", PyVal.str "pan"), ("product_name", PyVal.str "pan"),
  ("post_title", PyVal.none),
  ("comunicacion_type", PyVal.str ""), ("product_description", PyVal.str ""),
  ("sale_price", PyVal.str ""), ("price", PyVal.str ""),
  ("price_type", PyVal.str ""), ("brand", PyVal.str "m"),
  ("outstanding", PyVal.str ""), ("sap_ean_code", PyVal.str ""),
  ("region", PyVal.str ""), ("measure", PyVal.str ""),
  ("product_url", PyVal.str "https://aratiendas.com/producto/pan/"),
  ("category", PyVal.tup [PyVal.str "pan/"]),
  ("extracted_region", PyVal.none),
  ("extracted_datetime", PyVal.datetime 2026 10 12 10 30 0),
  ("extracted_date", PyVal.str "20261012"),
  ("extracted_time", PyVal.str "10:30:00")]

/-- World for the stale-index scenario: the national page has an admin event
whose body is empty (so the region is skipped), while the `norte` page has no
admin event at all but does have a log entry whose request id resolves to a
one-product payload. -/
def wEx2 : Web := {
  logs := fun u =>
    if u = "https://aratiendas.com/rebajon/" then [adminEvent]
    else if u = "https://aratiendas.com/rebajon/norte/" then [noAdminEvent]
    else [],
  body := fun rid => match rid with
    | PyVal.str s =>
        if s = "REQ1" then some ""
        else if s = "REQ2" then some "BODY1" else Option.none
    | _ => Option.none,
  jsonLoads := fun s =>
    if s = "BODY1" then PyVal.dict [("data", PyVal.list [productMin])] else PyVal.none,
  resolve := fun u => u }

/-- World whose one admin event leads to a body whose decoded payload has no
`"data"` key. -/
def wC4 : Web := {
  logs := fun _ => [adminEvent],
  body := fun rid => match rid with
    | PyVal.str s => if s = "REQ1" then some "BODY4" else Option.none
    | _ => Option.none,
  jsonLoads := fun s =>
    if s = "BODY4" then PyVal.dict [("other", PyVal.str "x")] else PyVal.none,
  resolve := fun u => u }

/-- Raw product record that has no `meta` key at all. -/
def productNoMetaKvs : List (String × PyVal) := [
  ("ID", PyVal.str "2"),
  ("post_type", PyVal.str "producto"),
  ("post_name", PyVal.str "pan")]

/-- Normalized record `_get_product_info` produces for `productNoMetaKvs`. -/
def rowNoMeta : Row := [
  ("id", PyVal.str "2"), ("image_url", PyVal.none),
  ("post_type", PyVal.str "producto"),
  ("post_date", PyVal.none), ("post_modified", PyVal.none),
  ("post_status", PyVal.none),
  ("post_name", PyVal.str "pan"), ("product_name", PyVal.str "pan"),
  ("post_title", PyVal.none),
  ("product_url", PyVal.str "https://aratiendas.com/producto/pan/"),
  ("category", PyVal.tup [PyVal.str "pan/"])]

/-- World whose national page has an admin event with an empty response
body, and whose regional pages log nothing. -/
def wC5 : Web := {
  logs := fun u => if u = "https://aratiendas.com/rebajon/" then [adminEvent] else [],
  body := fun rid => match rid with
    | PyVal.str s => if s = "REQ1" then some "" else Option.none
    | _ => Option.none,
  jsonLoads := fun _ => PyVal.none,
  resolve := fun u => u }

/-! ## General lemmas about the embedded operations -/

/-- Bind on a successful `Except` computation reduces. -/
theorem exbind_ok {α β : Type} (a : α) (f : α → Except PyError β) :
    (Except.ok a >>= f) = f a := rfl

/-- Bind on a failed `Except` computation reduces. -/
theorem exbind_err {α β : Type} (e : PyError) (f : α → Except PyError β) :
    ((Except.error e : Except PyError α) >>= f) = Except.error e := rfl

/-- On a dict argument with a non-empty key, `_get_first_element` succeeds
with the closed-form value `firstElemVal`. -/
theorem ge_eq (m : List (String × PyVal)) (key : String) (h : key.isEmpty = false) :
    _get_first_element (PyVal.dict m) key = Except.ok (firstElemVal m key) := by
  cases hd : dLookup m key <;> simp [_get_first_element, firstElemVal, hd, h]

/-- On a non-dict argument, `_get_first_element` raises `AttributeError`. -/
theorem ge_not_dict (v : PyVal) (key : String) (h : ∀ m, v ≠ PyVal.dict m) :
    _get_first_element v key = Except.error PyError.attributeError := by
  cases v <;> first
    | rfl
    | exact absurd rfl (h _)

/-- Characterization of `_get_product_info` when the product has no truthy
`meta` value. -/
theorem gpi_eq_falsy (resolve : String → String) (kvs : List (String × PyVal))
    (h : pyTruthy (dLookup kvs "meta") = false) :
    _get_product_info resolve kvs = Except.ok (finishRow resolve (baseRow kvs ++ [])) := by
  simp only [_get_product_info, h, Bool.false_eq_true, if_false]
  rfl

/-- Characterization of `_get_product_info` when the product's `meta` value
is a non-empty dict. -/
theorem gpi_eq_dict (resolve : String → String) (kvs m : List (String × PyVal))
    (h : dLookup kvs "meta" = PyVal.dict m) (hm : pyTruthy (PyVal.dict m) = true) :
    _get_product_info resolve kvs =
      Except.ok (finishRow resolve (baseRow kvs ++ metaRow10 m)) := by
  simp only [_get_product_info, h, hm, if_true]
  rw [ge_eq m "comunicacion" rfl]
  rw [ge_eq m "descripcion" rfl]
  rw [ge_eq m "precio_promocion_" rfl]
  rw [ge_eq m "precio_referente" rfl]
  rw [ge_eq m "tipo_de_precio_referente" rfl]
  rw [ge_eq m "marca" rfl]
  rw [ge_eq m "producto_destacado" rfl]
  rw [ge_eq m "sap-ean" rfl]
  rw [ge_eq m "region" rfl]
  rw [ge_eq m "unidad_de_medida" rfl]
  rfl

/-- A truthy non-dict `meta` makes `_get_product_info` raise
`AttributeError` at the first `_get_first_element` call. -/
theorem gpi_truthy_non_dict (resolve : String → String) (kvs : List (String × PyVal))
    (v : PyVal) (hm : dLookup kvs "meta" = v) (ht : pyTruthy v = true)
    (hnd : ∀ m, v ≠ PyVal.dict m) :
    _get_product_info resolve kvs = Except.error PyError.attributeError := by
  simp only [_get_product_info, hm, ht, if_true]
  rw [ge_not_dict v "comunicacion" hnd]
  rfl

/-- Every successful `_get_product_info` result has one of two shapes:
no truthy `meta` (no meta-derived fields), or a `meta` dict (all ten
meta-derived fields). -/
theorem gpi_ok_cases (resolve : String → String) (kvs : List (String × PyVal)) (row : Row)
    (h : _get_product_info resolve kvs = Except.ok row) :
    row = finishRow resolve (baseRow kvs ++ []) ∨
    ∃ m, dLookup kvs "meta" = PyVal.dict m ∧
      row = finishRow resolve (baseRow kvs ++ metaRow10 m) := by
  by_cases ht : pyTruthy (dLookup kvs "meta") = true
  · cases hm : dLookup kvs "meta" with
    | dict m =>
        rw [hm] at ht
        have := (gpi_eq_dict resolve kvs m hm ht).symm.trans h
        injection this with h2
        exact Or.inr ⟨m, rfl, h2.symm⟩
    | none =>
        rw [hm] at ht
        cases ht
    | str s =>
        rw [gpi_truthy_non_dict resolve kvs _ hm (hm ▸ ht)
          (fun m hh => PyVal.noConfusion hh)] at h
        cases h
    | int n =>
        rw [gpi_truthy_non_dict resolve kvs _ hm (hm ▸ ht)
          (fun m hh => PyVal.noConfusion hh)] at h
        cases h
    | list xs =>
        rw [gpi_truthy_non_dict resolve kvs _ hm (hm ▸ ht)
          (fun m hh => PyVal.noConfusion hh)] at h
        cases h
    | tup xs =>
        rw [gpi_truthy_non_dict resolve kvs _ hm (hm ▸ ht)
          (fun m hh => PyVal.noConfusion hh)] at h
        cases h
    | datetime y mo d hh mi s =>
        rw [gpi_truthy_non_dict resolve kvs _ hm (hm ▸ ht)
          (fun m hhh => PyVal.noConfusion hhh)] at h
        cases h
  · have ht' : pyTruthy (dLookup kvs "meta") = false := by
      cases hx : pyTruthy (dLookup kvs "meta")
      · rfl
      · exact absurd hx ht
    have := (gpi_eq_falsy resolve kvs ht').symm.trans h
    injection this with h2
    exact Or.inl h2.symm

/-- A successful `productRow` came from a dict product through
`_get_product_info`, with the four extraction-metadata fields appended. -/
theorem productRow_ok_shape (resolve : String → String) (now : PyDateTime)
    (region : Option String) (p : PyVal) (row : Row)
    (h : productRow resolve now region p = Except.ok row) :
    ∃ kvs info, p = PyVal.dict kvs ∧ _get_product_info resolve kvs = Except.ok info ∧
      row = info ++ extFields region now := by
  cases p with
  | dict kvs =>
      unfold productRow at h
      dsimp only at h
      cases hg : _get_product_info resolve kvs with
      | error e => rw [hg] at h; cases h
      | ok info =>
          rw [hg] at h
          injection h with h2
          exact ⟨kvs, info, rfl, hg, h2.symm⟩
  | none => cases h
  | str s => cases h
  | int n => cases h
  | list xs => cases h
  | tup xs => cases h
  | datetime y mo d hh mi s => cases h

/-- Field-level facts about every row `productRow` produces: the four
extraction-metadata fields carry the run timestamp, its two formatted
renderings and the region marker; the key list is one of the two fixed
layouts; and the category value is a one-element tuple of a string. -/
theorem productRow_fields (resolve : String → String) (now : PyDateTime)
    (region : Option String) (p : PyVal) (row : Row)
    (h : productRow resolve now region p = Except.ok row) :
    rowGet row "extracted_region" = regionMarker region ∧
    rowGet row "extracted_datetime" =
      PyVal.datetime now.year now.month now.day now.hour now.minute now.second ∧
    rowGet row "extracted_date" = PyVal.str (strftimeYmd now) ∧
    rowGet row "extracted_time" = PyVal.str (strftimeHMS now) ∧
    (rowKeys row = keysNoMeta ++ extractedKeys ∨ rowKeys row = allColumns) ∧
    (∃ s, rowGet row "category" = PyVal.tup [PyVal.str s]) := by
  obtain ⟨kvs, info, hp, hg, hrow⟩ := productRow_ok_shape resolve now region p row h
  rcases gpi_ok_cases resolve kvs info hg with h1 | ⟨m, hm, h1⟩
  · subst h1; subst hrow
    exact ⟨rfl, rfl, rfl, rfl, Or.inl rfl, ⟨_, rfl⟩⟩
  · subst h1; subst hrow
    exact ⟨rfl, rfl, rfl, rfl, Or.inr rfl, ⟨_, rfl⟩⟩

/-- Shapes of the remaining normalizer-constructed values in every row
`productRow` produces: `product_url` is a string, and each of the ten
meta-derived fields is either absent (looking it up yields Python `None`) or
a string. -/
theorem productRow_value_shapes (resolve : String → String) (now : PyDateTime)
    (region : Option String) (p : PyVal) (row : Row)
    (h : productRow resolve now region p = Except.ok row) :
    (∃ s, rowGet row "product_url" = PyVal.str s) ∧
    ∀ k ∈ metaDerivedKeys,
      rowGet row k = PyVal.none ∨ ∃ s, rowGet row k = PyVal.str s := by
  obtain ⟨kvs, info, hp, hg, hrow⟩ := productRow_ok_shape resolve now region p row h
  rcases gpi_ok_cases resolve kvs info hg with h1 | ⟨m, hm, h1⟩
  · subst h1; subst hrow
    refine ⟨⟨_, rfl⟩, ?_⟩
    intro k hk
    simp only [metaDerivedKeys, List.mem_cons, List.not_mem_nil, or_false] at hk
    rcases hk with rfl | rfl | rfl | rfl | rfl | rfl | rfl | rfl | rfl | rfl <;>
      exact Or.inl rfl
  · subst h1; subst hrow
    refine ⟨⟨_, rfl⟩, ?_⟩
    intro k hk
    simp only [metaDerivedKeys, List.mem_cons, List.not_mem_nil, or_false] at hk
    rcases hk with rfl | rfl | rfl | rfl | rfl | rfl | rfl | rfl | rfl | rfl <;>
      exact Or.inr ⟨_, rfl⟩

/-- Every row a successful `buildRows` returns was produced by `productRow`. -/
theorem buildRows_mem (resolve : String → String) (now : PyDateTime)
    (region : Option String) :
    ∀ (items : List PyVal) (rows : List Row),
      buildRows resolve now region items = Except.ok rows →
      ∀ row ∈ rows, ∃ p, productRow resolve now region p = Except.ok row := by
  intro items
  induction items with
  | nil =>
      intro rows h row hr
      injection h with h2
      subst h2
      cases hr
  | cons p ps ih =>
      intro rows h row hr
      unfold buildRows at h
      cases hp : productRow resolve now region p with
      | error e => rw [hp] at h; cases h
      | ok r0 =>
          rw [hp] at h
          cases hb : buildRows resolve now region ps with
          | error e => rw [hb] at h; cases h
          | ok rest =>
              rw [hb] at h
              injection h with h2
              subst h2
              cases hr with
              | head => exact ⟨p, hp⟩
              | tail _ htail => exact ih rest hb row htail

/-- A successful `buildRows` keeps the products' discovery order: the output
has one row per item, the `i`-th row normalizing the `i`-th item. -/
theorem buildRows_order (resolve : String → String) (now : PyDateTime)
    (region : Option String) :
    ∀ (items : List PyVal) (rows : List Row),
      buildRows resolve now region items = Except.ok rows →
      rows.length = items.length ∧
      ∀ (i : Nat) (hi : i < items.length) (hr : i < rows.length),
        productRow resolve now region (items.get ⟨i, hi⟩) =
          Except.ok (rows.get ⟨i, hr⟩) := by
  intro items
  induction items with
  | nil =>
      intro rows h
      injection h with h2
      subst h2
      exact ⟨rfl, fun i hi => absurd hi (Nat.not_lt_zero i)⟩
  | cons p ps ih =>
      intro rows h
      unfold buildRows at h
      cases hp : productRow resolve now region p with
      | error e => rw [hp] at h; cases h
      | ok r0 =>
          rw [hp] at h
          cases hb : buildRows resolve now region ps with
          | error e => rw [hb] at h; cases h
          | ok rest =>
              rw [hb] at h
              injection h with h2
              subst h2
              obtain ⟨hlen, hidx⟩ := ih rest hb
              refine ⟨by simp [hlen], ?_⟩
              intro i hi hr
              cases i with
              | zero => exact hp
              | succ j =>
                  exact hidx j (Nat.lt_of_succ_lt_succ hi) (Nat.lt_of_succ_lt_succ hr)

/-- A region that `regionFetch` processes into a table got that table from
`buildRows` on the products discovered in its payload. -/
theorem regionFetch_some (w : Web) (now : PyDateTime) (region : Option String)
    (events : List PyVal) (i : Nat) (tbl : List Row)
    (h : regionFetch w now region events i = Except.ok (some tbl)) :
    ∃ items, buildRows w.resolve now region items = Except.ok tbl := by
  unfold regionFetch at h
  cases h1 : listIndex events i with
  | error e => rw [h1] at h; cases h
  | ok ev =>
    rw [h1] at h
    dsimp only at h
    cases h2 : pySubscript ev "params" with
    | error e => rw [h2] at h; cases h
    | ok ps =>
      rw [h2] at h
      dsimp only at h
      cases h3 : pySubscript ps "requestId" with
      | error e => rw [h3] at h; cases h
      | ok rid =>
        rw [h3] at h
        dsimp only at h
        cases h4 : w.body rid with
        | none => rw [h4] at h; dsimp only at h; simp at h
        | some s =>
          rw [h4] at h
          dsimp only at h
          by_cases h5 : s = ""
          · rw [if_pos h5] at h; simp at h
          · rw [if_neg h5] at h
            cases h6 : pyDotGet (w.jsonLoads s) "data" with
            | error e => rw [h6] at h; cases h
            | ok list_products =>
              rw [h6] at h
              dsimp only at h
              cases h7 : pyLen list_products with
              | error e => rw [h7] at h; cases h
              | ok n =>
                rw [h7] at h
                dsimp only at h
                cases h8 : pyElems list_products with
                | error e => rw [h8] at h; cases h
                | ok items =>
                  rw [h8] at h
                  dsimp only at h
                  cases h9 : buildRows w.resolve now region items with
                  | error e => rw [h9] at h; cases h
                  | ok rows =>
                    rw [h9] at h
                    dsimp only at h
                    injection h with h10
                    injection h10 with h11
                    exact ⟨items, h11 ▸ h9⟩

/-- A region `runRegion` processes into a table got that table from
`buildRows`. -/
theorem runRegion_some (w : Web) (now : PyDateTime) (fe : Option Nat)
    (region : Option String) (fe2 : Option Nat) (tbl : List Row)
    (h : runRegion w now fe region = Except.ok (fe2, some tbl)) :
    ∃ items, buildRows w.resolve now region items = Except.ok tbl := by
  unfold runRegion at h
  dsimp only at h
  cases hs : adminScanFrom 0 (w.logs (regionUrl region)) with
  | none =>
      rw [hs] at h
      dsimp only at h
      cases fe with
      | none => cases h
      | some k =>
          dsimp only at h
          cases hrf : regionFetch w now region (w.logs (regionUrl region)) k with
          | error e => rw [hrf] at h; cases h
          | ok o =>
              rw [hrf] at h
              dsimp only at h
              injection h with h10
              have ho : o = some tbl := congrArg Prod.snd h10
              exact regionFetch_some w now region _ k tbl (ho ▸ hrf)
  | some i =>
      rw [hs] at h
      dsimp only at h
      cases hrf : regionFetch w now region (w.logs (regionUrl region)) i with
      | error e => rw [hrf] at h; cases h
      | ok o =>
          rw [hrf] at h
          dsimp only at h
          injection h with h10
          have ho : o = some tbl := congrArg Prod.snd h10
          exact regionFetch_some w now region _ i tbl (ho ▸ hrf)

/-- Every table a completed region loop collected (beyond the accumulator it
started with) came from processing one of the listed regions. -/
theorem webLoop_mem (w : Web) (now : PyDateTime) :
    ∀ (rs : List (Option String)) (fe : Option Nat) (acc ts : List (List Row)),
      webLoop w now rs fe acc = Except.ok ts →
      ∀ tbl ∈ ts, tbl ∈ acc ∨ ∃ r ∈ rs, ∃ fe1 fe2,
        runRegion w now fe1 r = Except.ok (fe2, some tbl) := by
  intro rs
  induction rs with
  | nil =>
      intro fe acc ts h tbl htbl
      injection h with h2
      subst h2
      exact Or.inl htbl
  | cons r rest ih =>
      intro fe acc ts h tbl htbl
      unfold webLoop at h
      cases hr : runRegion w now fe r with
      | error e => rw [hr] at h; cases h
      | ok pair =>
          rw [hr] at h
          obtain ⟨fe', opt⟩ := pair
          cases opt with
          | none =>
              dsimp only at h
              rcases ih fe' acc ts h tbl htbl with hin | ⟨r', hr', fe1, fe2, hrun⟩
              · exact Or.inl hin
              · exact Or.inr ⟨r', List.mem_cons_of_mem r hr', fe1, fe2, hrun⟩
          | some rows =>
              dsimp only at h
              rcases ih fe' (acc ++ [rows]) ts h tbl htbl with hin | ⟨r', hr', fe1, fe2, hrun⟩
              · rcases List.mem_append.mp hin with hA | hB
                · exact Or.inl hA
                · have hrows : tbl = rows := by simpa using hB
                  subst hrows
                  exact Or.inr ⟨r, List.mem_cons_self r rest, fe, fe', hr⟩
              · exact Or.inr ⟨r', List.mem_cons_of_mem r hr', fe1, fe2, hrun⟩

/-- The accumulate-then-concatenate region loop computes the same rows as the
direct order-preserving concatenation `specOrderedRows`, modulo the rows
already in the accumulator. -/
theorem webLoop_spec (w : Web) (now : PyDateTime) :
    ∀ (rs : List (Option String)) (fe : Option Nat) (acc ts : List (List Row)),
      webLoop w now rs fe acc = Except.ok ts →
      ∃ rest, specOrderedRows w now rs fe = Except.ok rest ∧
        ts.flatten = acc.flatten ++ rest := by
  intro rs
  induction rs with
  | nil =>
      intro fe acc ts h
      injection h with h2
      subst h2
      exact ⟨[], rfl, by simp⟩
  | cons r rest0 ih =>
      intro fe acc ts h
      unfold webLoop at h
      unfold specOrderedRows
      cases hr : runRegion w now fe r with
      | error e => rw [hr] at h; cases h
      | ok pair =>
          rw [hr] at h
          obtain ⟨fe', opt⟩ := pair
          cases opt with
          | none =>
              dsimp only at h
              obtain ⟨rest, hspec, hflat⟩ := ih fe' acc ts h
              exact ⟨rest, hspec, hflat⟩
          | some rows =>
              dsimp only at h ⊢
              obtain ⟨rest, hspec, hflat⟩ := ih fe' (acc ++ [rows]) ts h
              rw [hspec]
              refine ⟨rows ++ rest, rfl, ?_⟩
              rw [hflat]
              simp

/-- `adminScanFrom n` finds exactly the first matching event: the found index
is at least `n`, the event at the found offset matches, and every earlier
event does not. -/
theorem adminScanFrom_spec :
    ∀ (events : List PyVal) (n i : Nat), adminScanFrom n events = some i →
      n ≤ i ∧ (∃ ev, events[i - n]? = some ev ∧ hasAdmin ev = true) ∧
      ∀ j, j < i - n → ∀ ev', events[j]? = some ev' → hasAdmin ev' = false := by
  intro events
  induction events with
  | nil => intro n i h; cases h
  | cons e es ih =>
      intro n i h
      unfold adminScanFrom at h
      by_cases he : hasAdmin e = true
      · rw [if_pos he] at h
        injection h with h2
        subst h2
        refine ⟨Nat.le_refl n, ⟨e, ?_, he⟩, ?_⟩
        · simp
        · intro j hj
          simp at hj
      · have he' : hasAdmin e = false := by
          cases hx : hasAdmin e
          · rfl
          · exact absurd hx he
        rw [if_neg he] at h
        obtain ⟨hn1, ⟨ev, hev, hadm⟩, hprev⟩ := ih (n + 1) i h
        have hin : i - n = (i - (n + 1)) + 1 := by omega
        refine ⟨Nat.le_of_succ_le hn1, ⟨ev, ?_, hadm⟩, ?_⟩
        · rw [hin]
          simpa using hev
        · intro j hj ev' hev'
          cases j with
          | zero =>
              have : e = ev' := by simpa using hev'
              rw [← this]
              exact he'
          | succ j' =>
              have hj' : j' < i - (n + 1) := by omega
              have hes : es[j']? = some ev' := by simpa using hev'
              exact hprev j' hj' ev' hes

/-- A name is a column of the table exactly when some row binds it. -/
theorem mem_tableColumns (rows : List Row) (c : String) :
    c ∈ tableColumns rows ↔ ∃ row ∈ rows, c ∈ rowKeys row := by
  unfold tableColumns
  rw [List.mem_dedup, List.mem_flatten]
  constructor
  · rintro ⟨l, hl, hc⟩
    rw [List.mem_map] at hl
    obtain ⟨row, hrow, rfl⟩ := hl
    exact ⟨row, hrow, hc⟩
  · rintro ⟨row, hrow, hc⟩
    exact ⟨rowKeys row, List.mem_map_of_mem rowKeys hrow, hc⟩

/-- Every row of a completed run was produced by `productRow` under one of
the supplied regions. -/
theorem webscraping_rows (w : Web) (now : PyDateTime) (regions : List (Option String))
    (rows : List Row) (h : webscraping_ara w now regions = Except.ok rows) :
    ∀ row ∈ rows, ∃ r ∈ regions, ∃ p, productRow w.resolve now r p = Except.ok row := by
  unfold webscraping_ara at h
  cases hl : webLoop w now regions Option.none [] with
  | error e => rw [hl] at h; cases h
  | ok ts =>
      rw [hl] at h
      cases ts with
      | nil => cases h
      | cons t ts' =>
          injection h with h2
          subst h2
          intro row hrow
          rw [List.mem_flatten] at hrow
          obtain ⟨tbl, htbl, hrowtbl⟩ := hrow
          rcases webLoop_mem w now regions Option.none [] (t :: ts') hl tbl htbl with
            hin | ⟨r, hrreg, fe1, fe2, hrun⟩
          · cases hin
          · obtain ⟨items, hbuild⟩ := runRegion_some w now fe1 r fe2 tbl hrun
            obtain ⟨p, hp⟩ := buildRows_mem w.resolve now r items tbl hbuild row hrowtbl
            exact ⟨r, hrreg, p, hp⟩

/-! ## Claim theorems -/

/-- C1, code evaluated at the failing input.  For the raw product with
`meta = {"marca": ["AcmeCo"]}` the normalized `brand` field is the string
`"m"` — `str(key[0])`, the first character of the key name `"marca"` — and
not the first element `"AcmeCo"` of the list value that the claim (and the
helper's own docstring) promise; `"m"` and `"AcmeCo"` differ. -/
theorem C1_first_element_bug :
    Except.map (fun r => rowGet r "brand") (_get_product_info resolveEx product1kvs) =
      Except.ok (PyVal.str "m") ∧
    ("m" == "AcmeCo") = false :=
  ⟨rfl, rfl⟩

/-- C3, code evaluated at the failing input.  For post type `producto`,
product name `leche-entera` and resolved URL
`https://aratiendas.com/producto/leche-entera/lacteos/`, the code's category
is the one-element tuple `("leche-entera/lacteos/",)` — the trailing comma
makes it a tuple, and the `/leche-entera/` pattern never matches after the
leading slash was consumed — not the scalar string `"lacteos/"` the claim
states. -/
theorem C3_category_bug :
    Except.map (fun r => rowGet r "category") (_get_product_info resolveEx product1kvs) =
      Except.ok (PyVal.tup [PyVal.str "leche-entera/lacteos/"]) ∧
    Except.map (fun r => isStrVal (rowGet r "category"))
      (_get_product_info resolveEx product1kvs) = Except.ok false :=
  ⟨rfl, rfl⟩

/-- C2, counterexample to the claim as stated: a run over two regions in
which the second region's log has no `"admin"` event at all, yet the run
returns normally instead of failing — the first region bound `first_event`,
and that stale index is silently reused. -/
theorem C2_counterexample :
    isOkRun (webscraping_ara wEx2 nowEx [Option.none, some "norte"]) = true ∧
    (wEx2.logs (regionUrl (some "norte"))).all (fun e => !hasAdmin e) = true :=
  ⟨rfl, rfl⟩

/-- C2 as amended: the scan does select the first `"admin"` event whenever
one exists; a region with no such event aborts the run with a `NameError`
only when no earlier region ever found one (`first_event` still unbound),
and otherwise silently reuses the stale index from an earlier region in the
response-body fetch. -/
theorem C2_admin_scan_amended :
    (∀ (events : List PyVal) (i : Nat), adminScanFrom 0 events = some i →
      (∃ ev, events[i]? = some ev ∧ hasAdmin ev = true) ∧
      ∀ j, j < i → ∀ ev', events[j]? = some ev' → hasAdmin ev' = false) ∧
    (∀ (w : Web) (now : PyDateTime) (r : Option String),
      adminScanFrom 0 (w.logs (regionUrl r)) = Option.none →
      runRegion w now Option.none r = Except.error PyError.nameError) ∧
    (∀ (w : Web) (now : PyDateTime) (r : Option String) (k : Nat),
      adminScanFrom 0 (w.logs (regionUrl r)) = Option.none →
      runRegion w now (some k) r =
        match regionFetch w now r (w.logs (regionUrl r)) k with
        | Except.error e => Except.error e
        | Except.ok o => Except.ok (some k, o)) := by
  refine ⟨?_, ?_, ?_⟩
  · intro events i h
    obtain ⟨_, ⟨ev, hev, hadm⟩, hprev⟩ := adminScanFrom_spec events 0 i h
    refine ⟨⟨ev, by simpa using hev, hadm⟩, ?_⟩
    intro j hj ev' hev'
    exact hprev j (by simpa using hj) ev' hev'
  · intro w now r h
    unfold runRegion
    dsimp only
    rw [h]
  · intro w now r k h
    unfold runRegion
    dsimp only
    rw [h]

/-- C2 witness: the amended theorem applied at a concrete region whose log
has no admin event while `first_event` is still unbound. -/
theorem C2_witness :
    adminScanFrom 0 (wC5.logs (regionUrl (some "sur"))) = Option.none ∧
    runRegion wC5 nowEx Option.none (some "sur") = Except.error PyError.nameError :=
  ⟨rfl, C2_admin_scan_amended.2.1 wC5 nowEx (some "sur") rfl⟩

/-- C4, counterexample to the claim as stated: a region whose decoded
payload is a dict without the `"data"` key does not silently contribute
nothing — the run aborts with a `TypeError` (Python's `len(None)`). -/
theorem C4_counterexample :
    webscraping_ara wC4 nowEx [Option.none] = Except.error PyError.typeError ∧
    wC4.jsonLoads "BODY4" = PyVal.dict [("other", PyVal.str "x")] :=
  ⟨rfl, rfl⟩

/-- C4 as amended: for every region whose scan resolves to an event with a
request id whose non-empty body decodes to a dict lacking the `"data"` key,
`.get("data")` yields `None`, `len(None)` raises `TypeError`, and the error
aborts the region and propagates out of the whole run. -/
theorem C4_missing_data_amended (w : Web) (now : PyDateTime) (r : Option String)
    (rs : List (Option String)) (i : Nat) (ev ps rid : PyVal) (s : String)
    (kvs : List (String × PyVal))
    (hscan : adminScanFrom 0 (w.logs (regionUrl r)) = some i)
    (hev : (w.logs (regionUrl r))[i]? = some ev)
    (hps : pySubscript ev "params" = Except.ok ps)
    (hrid : pySubscript ps "requestId" = Except.ok rid)
    (hbody : w.body rid = some s) (hs : ¬ s = "")
    (hjson : w.jsonLoads s = PyVal.dict kvs)
    (hdata : kvs.find? (fun kv => kv.1 == "data") = Option.none) :
    (∀ fe, runRegion w now fe r = Except.error PyError.typeError) ∧
    webscraping_ara w now (r :: rs) = Except.error PyError.typeError := by
  have hidx : listIndex (w.logs (regionUrl r)) i = Except.ok ev := by
    unfold listIndex
    rw [hev]
  have hlook : dLookup kvs "data" = PyVal.none := by
    unfold dLookup
    rw [hdata]
  have hrr : ∀ fe, runRegion w now fe r = Except.error PyError.typeError := by
    intro fe
    unfold runRegion
    dsimp only
    rw [hscan]
    dsimp only
    unfold regionFetch
    rw [hidx]
    dsimp only
    rw [hps]
    dsimp only
    rw [hrid]
    dsimp only
    rw [hbody]
    dsimp only
    rw [if_neg hs]
    rw [hjson]
    dsimp only [pyDotGet]
    rw [hlook]
    rfl
  refine ⟨hrr, ?_⟩
  unfold webscraping_ara webLoop
  rw [hrr Option.none]

/-- C4 witness: the amended theorem applied at the concrete world `wC4`. -/
theorem C4_witness :
    wC4.jsonLoads "BODY4" = PyVal.dict [("other", PyVal.str "x")] ∧
    webscraping_ara wC4 nowEx [some "centro"] = Except.error PyError.typeError :=
  ⟨rfl, (C4_missing_data_amended wC4 nowEx (some "centro") [] 0 adminEvent
    (PyVal.dict [("requestId", PyVal.str "REQ1")]) (PyVal.str "REQ1") "BODY4"
    [("other", PyVal.str "x")] rfl rfl rfl rfl rfl (by decide) rfl rfl).2⟩

/-- C5: a region whose admin scan resolves to an event with a request id
whose response body is absent or empty is silently skipped — `runRegion`
returns normally with no table for it — and the region loop continues with
the remaining regions from the same state. -/
theorem C5_empty_body_skip (w : Web) (now : PyDateTime) (r : Option String)
    (fe : Option Nat) (i : Nat) (ev ps rid : PyVal)
    (hscan : adminScanFrom 0 (w.logs (regionUrl r)) = some i)
    (hev : (w.logs (regionUrl r))[i]? = some ev)
    (hps : pySubscript ev "params" = Except.ok ps)
    (hrid : pySubscript ps "requestId" = Except.ok rid)
    (hbody : w.body rid = Option.none ∨ w.body rid = some "") :
    runRegion w now fe r = Except.ok (some i, Option.none) ∧
    ∀ (rs : List (Option String)) (acc : List (List Row)),
      webLoop w now (r :: rs) fe acc = webLoop w now rs (some i) acc := by
  have hidx : listIndex (w.logs (regionUrl r)) i = Except.ok ev := by
    unfold listIndex
    rw [hev]
  have hrr : runRegion w now fe r = Except.ok (some i, Option.none) := by
    unfold runRegion
    dsimp only
    rw [hscan]
    dsimp only
    unfold regionFetch
    rw [hidx]
    dsimp only
    rw [hps]
    dsimp only
    rw [hrid]
    dsimp only
    rcases hbody with hb | hb
    · rw [hb]
    · rw [hb]
      dsimp only
      rw [if_pos rfl]
  refine ⟨hrr, ?_⟩
  intro rs acc
  conv_lhs => rw [webLoop]
  rw [hrr]

/-- C5 witness: the theorem applied at the concrete world `wC5`, whose
national page's admin event has an empty response body. -/
theorem C5_witness :
    wC5.body (PyVal.str "REQ1") = some "" ∧
    runRegion wC5 nowEx Option.none Option.none = Except.ok (some 0, Option.none) ∧
    webLoop wC5 nowEx [Option.none] Option.none [] =
      webLoop wC5 nowEx [] (some 0) [] :=
  ⟨rfl,
    (C5_empty_body_skip wC5 nowEx Option.none Option.none 0 adminEvent
      (PyVal.dict [("requestId", PyVal.str "REQ1")]) (PyVal.str "REQ1")
      rfl rfl rfl rfl (Or.inr rfl)).1,
    (C5_empty_body_skip wC5 nowEx Option.none Option.none 0 adminEvent
      (PyVal.dict [("requestId", PyVal.str "REQ1")]) (PyVal.str "REQ1")
      rfl rfl rfl rfl (Or.inr rfl)).2 [] []⟩

/-- C6: a raw product record with no `"meta"` key normalizes to a record
whose key list is exactly the eleven non-meta keys — none of the ten
meta-derived fields is present, not even with an empty or default value. -/
theorem C6_missing_meta (resolve : String → String) (kvs : List (String × PyVal))
    (row : Row)
    (hmeta : kvs.find? (fun kv => kv.1 == "meta") = Option.none)
    (hrow : _get_product_info resolve kvs = Except.ok row) :
    rowKeys row = keysNoMeta ∧
    (metaDerivedKeys.all (fun k => !(rowKeys row).contains k)) = true := by
  have hl : dLookup kvs "meta" = PyVal.none := by
    unfold dLookup
    rw [hmeta]
  have ht : pyTruthy (dLookup kvs "meta") = false := by rw [hl]; rfl
  have hh := (gpi_eq_falsy resolve kvs ht).symm.trans hrow
  injection hh with h2
  rw [← h2]
  exact ⟨rfl, rfl⟩

/-- C6 witness: the theorem applied at a concrete meta-less product. -/
theorem C6_witness :
    productNoMetaKvs.find? (fun kv => kv.1 == "meta") = Option.none ∧
    _get_product_info resolveEx productNoMetaKvs = Except.ok rowNoMeta ∧
    rowKeys rowNoMeta = keysNoMeta ∧
    (metaDerivedKeys.all (fun k => !(rowKeys rowNoMeta).contains k)) = true :=
  ⟨rfl, rfl,
    (C6_missing_meta resolveEx productNoMetaKvs rowNoMeta rfl rfl).1,
    (C6_missing_meta resolveEx productNoMetaKvs rowNoMeta rfl rfl).2⟩

/-- C7: for every run that returns normally, the returned row list equals the
spec-side direct concatenation of the per-region tables in the order the
regions were supplied (`specOrderedRows`) — no deduplication, no reordering
(row indices of the list model are contiguous by construction, as after
`reset_index(drop=True)`); and within a region, `buildRows` keeps discovery
order: one row per product, the `i`-th row normalizing the `i`-th product. -/
theorem C7_order_preserving :
    (∀ (w : Web) (now : PyDateTime) (regions : List (Option String)) (rows : List Row),
      webscraping_ara w now regions = Except.ok rows →
      specOrderedRows w now regions Option.none = Except.ok rows) ∧
    (∀ (resolve : String → String) (now : PyDateTime) (region : Option String)
        (items : List PyVal) (rows : List Row),
      buildRows resolve now region items = Except.ok rows →
      rows.length = items.length ∧
      ∀ (i : Nat) (hi : i < items.length) (hr : i < rows.length),
        productRow resolve now region (items.get ⟨i, hi⟩) =
          Except.ok (rows.get ⟨i, hr⟩)) := by
  constructor
  · intro w now regions rows h
    unfold webscraping_ara at h
    cases hl : webLoop w now regions Option.none [] with
    | error e => rw [hl] at h; cases h
    | ok ts =>
        rw [hl] at h
        cases ts with
        | nil => cases h
        | cons t ts' =>
            injection h with h2
            subst h2
            obtain ⟨rest, hspec, hflat⟩ :=
              webLoop_spec w now regions Option.none [] (t :: ts') hl
            simp only [List.flatten_nil, List.nil_append] at hflat
            rw [hspec, hflat]
  · exact fun resolve now region items rows h =>
      buildRows_order resolve now region items rows h

/-- C7 witness: the theorem applied at the concrete end-to-end world `wMin`. -/
theorem C7_witness :
    webscraping_ara wMin nowEx [Option.none] = Except.ok [rowMin] ∧
    specOrderedRows wMin nowEx [Option.none] Option.none = Except.ok [rowMin] ∧
    buildRows wMin.resolve nowEx Option.none [productMin] = Except.ok [rowMin] ∧
    ([rowMin] : List Row).length = ([productMin] : List PyVal).length :=
  ⟨rfl, C7_order_preserving.1 wMin nowEx [Option.none] [rowMin] rfl, rfl,
    (C7_order_preserving.2 wMin.resolve nowEx Option.none [productMin] [rowMin] rfl).1⟩

/-- C8: in every run that returns normally, each output row carries the
single run-start timestamp in `extracted_datetime`, its two formatted
renderings in `extracted_date` and `extracted_time`, and the marker of one
of the supplied regions (the region the row was scraped under, `None` for
the national case) in `extracted_region`. -/
theorem C8_shared_timestamp (w : Web) (now : PyDateTime)
    (regions : List (Option String)) (rows : List Row)
    (h : webscraping_ara w now regions = Except.ok rows) :
    ∀ row ∈ rows,
      rowGet row "extracted_datetime" =
        PyVal.datetime now.year now.month now.day now.hour now.minute now.second ∧
      rowGet row "extracted_date" = PyVal.str (strftimeYmd now) ∧
      rowGet row "extracted_time" = PyVal.str (strftimeHMS now) ∧
      ∃ r ∈ regions, rowGet row "extracted_region" = regionMarker r := by
  intro row hrow
  obtain ⟨r, hr, p, hp⟩ := webscraping_rows w now regions rows h row hrow
  obtain ⟨h1, h2, h3, h4, _, _⟩ := productRow_fields w.resolve now r p row hp
  exact ⟨h2, h3, h4, ⟨r, hr, h1⟩⟩

/-- C8 witness: the theorem applied at the concrete end-to-end world `wMin`
and its single output row. -/
theorem C8_witness :
    webscraping_ara wMin nowEx [Option.none] = Except.ok [rowMin] ∧
    rowGet rowMin "extracted_datetime" =
      PyVal.datetime nowEx.year nowEx.month nowEx.day nowEx.hour nowEx.minute nowEx.second ∧
    rowGet rowMin "extracted_date" = PyVal.str (strftimeYmd nowEx) ∧
    rowGet rowMin "extracted_time" = PyVal.str (strftimeHMS nowEx) ∧
    ∃ r ∈ [Option.none], rowGet rowMin "extracted_region" = regionMarker r :=
  ⟨rfl, C8_shared_timestamp wMin nowEx [Option.none] [rowMin] rfl rowMin
    (List.mem_singleton.mpr rfl)⟩

/-- C9, counterexample to the claim as stated: a run with one meta-carrying
product yields a table with 25 columns, not 24, and its `category` value is
not a scalar string. -/
theorem C9_counterexample :
    Except.map (fun rows => (tableColumns rows).length)
      (webscraping_ara wMin nowEx [Option.none]) = Except.ok 25 ∧
    (25 == 24) = false ∧
    Except.map (fun rows => rows.map (fun row => isStrVal (rowGet row "category")))
      (webscraping_ara wMin nowEx [Option.none]) = Except.ok [false] :=
  ⟨rfl, rfl, rfl⟩

/-- C9 as amended: in every run that returns normally and scrapes at least
one product with a `meta` key, the table's column set is exactly the 25
names the spec's data-model list enumerates (`allColumns`); every row's
`category` value is a one-element tuple holding a string rather than a
scalar; and every other field the normalizer itself constructs is scalar —
`product_url` is a string, each meta-derived field is a string when present,
`extracted_region` is a region marker (`None` or a string),
`extracted_datetime` is a datetime, and `extracted_date`/`extracted_time`
are strings.  (The nine directly-copied fields hold whatever values the raw
payload supplied, so no scalarity is asserted for them.) -/
theorem C9_columns_amended (w : Web) (now : PyDateTime)
    (regions : List (Option String)) (rows : List Row) (row0 : Row)
    (h : webscraping_ara w now regions = Except.ok rows)
    (h0 : row0 ∈ rows) (hb : "brand" ∈ rowKeys row0) :
    (∀ c, c ∈ tableColumns rows ↔ c ∈ allColumns) ∧
    (∀ row ∈ rows, ∃ s, rowGet row "category" = PyVal.tup [PyVal.str s]) ∧
    (∀ row ∈ rows,
      (∃ s, rowGet row "product_url" = PyVal.str s) ∧
      (∀ k ∈ metaDerivedKeys,
        rowGet row k = PyVal.none ∨ ∃ s, rowGet row k = PyVal.str s) ∧
      (∃ r, rowGet row "extracted_region" = regionMarker r) ∧
      (∃ y mo d hh mi se, rowGet row "extracted_datetime" =
        PyVal.datetime y mo d hh mi se) ∧
      (∃ s, rowGet row "extracted_date" = PyVal.str s) ∧
      (∃ s, rowGet row "extracted_time" = PyVal.str s)) := by
  have hall : ∀ row ∈ rows,
      (rowKeys row = keysNoMeta ++ extractedKeys ∨ rowKeys row = allColumns) ∧
      ∃ s, rowGet row "category" = PyVal.tup [PyVal.str s] := by
    intro row hrow
    obtain ⟨r, hr, p, hp⟩ := webscraping_rows w now regions rows h row hrow
    obtain ⟨_, _, _, _, hk, hc⟩ := productRow_fields w.resolve now r p row hp
    exact ⟨hk, hc⟩
  have hsub : ∀ x ∈ keysNoMeta ++ extractedKeys, x ∈ allColumns := by decide
  have hbrand : ¬ "brand" ∈ keysNoMeta ++ extractedKeys := by decide
  refine ⟨?_, ?_, ?_⟩
  · intro c
    rw [mem_tableColumns]
    constructor
    · rintro ⟨row, hrow, hc⟩
      rcases (hall row hrow).1 with hk | hk
      · exact hsub c (hk ▸ hc)
      · exact hk ▸ hc
    · intro hc
      refine ⟨row0, h0, ?_⟩
      rcases (hall row0 h0).1 with hk | hk
      · exact absurd (hk ▸ hb) hbrand
      · exact hk ▸ hc
  · intro row hrow
    exact (hall row hrow).2
  · intro row hrow
    obtain ⟨r, hr, p, hp⟩ := webscraping_rows w now regions rows h row hrow
    obtain ⟨hreg, hdt, hdate, htime, _, _⟩ := productRow_fields w.resolve now r p row hp
    obtain ⟨hurl, hmeta⟩ := productRow_value_shapes w.resolve now r p row hp
    exact ⟨hurl, hmeta, ⟨r, hreg⟩, ⟨_, _, _, _, _, _, hdt⟩, ⟨_, hdate⟩, ⟨_, htime⟩⟩

/-- C9 witness: the amended theorem applied at the concrete world `wMin`. -/
theorem C9_witness :
    webscraping_ara wMin nowEx [Option.none] = Except.ok [rowMin] ∧
    "brand" ∈ rowKeys rowMin ∧
    (∀ c, c ∈ tableColumns [rowMin] ↔ c ∈ allColumns) ∧
    (∀ row ∈ [rowMin], ∃ s, rowGet row "category" = PyVal.tup [PyVal.str s]) ∧
    (∀ row ∈ [rowMin],
      (∃ s, rowGet row "product_url" = PyVal.str s) ∧
      (∀ k ∈ metaDerivedKeys,
        rowGet row k = PyVal.none ∨ ∃ s, rowGet row k = PyVal.str s) ∧
      (∃ r, rowGet row "extracted_region" = regionMarker r) ∧
      (∃ y mo d hh mi se, rowGet row "extracted_datetime" =
        PyVal.datetime y mo d hh mi se) ∧
      (∃ s, rowGet row "extracted_date" = PyVal.str s) ∧
      (∃ s, rowGet row "extracted_time" = PyVal.str s)) :=
  ⟨rfl, by decide,
    (C9_columns_amended wMin nowEx [Option.none] [rowMin] rowMin rfl
      (List.mem_singleton.mpr rfl) (by decide)).1,
    (C9_columns_amended wMin nowEx [Option.none] [rowMin] rowMin rfl
      (List.mem_singleton.mpr rfl) (by decide)).2.1,
    (C9_columns_amended wMin nowEx [Option.none] [rowMin] rowMin rfl
      (List.mem_singleton.mpr rfl) (by decide)).2.2⟩

/-- C10: when the region loop completes having collected no per-region table
— the region list was empty, or every region was skipped for an empty or
absent response body — `webscraping_ara` does not return an empty table:
`pd.concat` on the empty list raises a `ValueError` that propagates out. -/
theorem C10_empty_concat (w : Web) (now : PyDateTime)
    (regions : List (Option String))
    (h : webLoop w now regions Option.none [] = Except.ok []) :
    webscraping_ara w now regions = Except.error PyError.valueError := by
  unfold webscraping_ara
  rw [h]
  rfl

/-- C10 witness: the theorem applied at a run whose single region is
skipped for its empty response body. -/
theorem C10_witness :
    webLoop wC5 nowEx [Option.none] Option.none [] = Except.ok [] ∧
    webscraping_ara wC5 nowEx [Option.none] = Except.error PyError.valueError :=
  ⟨rfl, C10_empty_concat wC5 nowEx [Option.none] rfl⟩
